import Mathlib

/-!
Verification of the `CopyValue` reactive state-cell layer
(`packages/signals/src/rt.rs`) over a shallow embedding.

The source file wraps two external collaborators that are specified only at
their interface boundary: the `generational_box` crate (an arena `Store` of
generation-counted slots, per-scope `Owner`s, and `GenerationalBox` handles
with runtime borrow tracking) and the scope-context registry of the component
runtime (`current_scope_id`, `consume_context`, `provide_context`, ...).
Those collaborators are modelled here from the specification; the `CopyValue`
wrapper itself (constructors, accessors, equality, serde) is translated
directly from the source.
-/

namespace DioxusSignals

/-- Scope identifiers of the component runtime (`dioxus_core::ScopeId`). -/
abbrev ScopeId := Nat

/-- Modelled from the spec: the runtime borrow state of one arena slot
(section 4.3): `Free`, `SharedBy(n>0)`, or `ExclusiveHeld`. -/
inductive BorrowState where
  | Free : BorrowState
  | SharedBy : Nat → BorrowState
  | ExclusiveHeld : BorrowState
deriving DecidableEq, Repr

/-- Modelled from the spec: one arena slot — a generation counter, contents
(occupied or empty), and a borrow state (section 3). -/
structure Slot (α : Type) where
  generation : Nat
  contents : Option α
  borrow : BorrowState
deriving DecidableEq, Repr

/-- Modelled from the spec: a `generational_box::GenerationalBox` handle —
a slot index plus the generation observed at creation time (section 3,
"Slot Handle"). -/
structure GenerationalBox where
  slotIndex : Nat
  generation : Nat
deriving DecidableEq, Repr

/-- Modelled from the spec: `GenerationalBox::ptr_eq` — two handles are equal
iff both the slot index and the captured generation match (section 3). -/
def GenerationalBox.ptr_eq (a b : GenerationalBox) : Bool :=
  a.slotIndex == b.slotIndex && a.generation == b.generation

/-- Modelled from the spec: the `generational_box::Store` arena — a growable
collection of slots plus a free-list of empty-slot indices (section 3). -/
structure Store (α : Type) where
  slots : List (Slot α)
  freeList : List Nat
deriving DecidableEq, Repr

/-- The empty arena store (`Store::default`). -/
def Store.empty (α : Type) : Store α := ⟨[], []⟩

/-- Update one slot of the store, leaving the free-list unchanged. -/
def Store.setSlot (st : Store α) (i : Nat) (sl : Slot α) : Store α :=
  ⟨st.slots.set i sl, st.freeList⟩

/-- Modelled from the spec: `Store::allocate` — pop a free-list index if one
is available (its generation was already bumped on its last free) or append a
new slot with generation 0; write the value and return a handle capturing the
current generation (section 4.1). -/
def Store.allocate (st : Store α) (v : α) : GenerationalBox × Store α :=
  match st.freeList with
  | i :: rest =>
      let g := (st.slots.getD i ⟨0, none, .Free⟩).generation
      (⟨i, g⟩, ⟨st.slots.set i ⟨g, some v, .Free⟩, rest⟩)
  | [] =>
      (⟨st.slots.length, 0⟩, ⟨st.slots ++ [⟨0, some v, .Free⟩], []⟩)

/-- Modelled from the spec: `Store::free` — clear the slot's contents, bump
its generation, reset the borrow state, push the index onto the free-list
(section 4.1). -/
def Store.free (st : Store α) (i : Nat) : Store α :=
  match st.slots[i]? with
  | some sl => ⟨st.slots.set i ⟨sl.generation + 1, none, .Free⟩, i :: st.freeList⟩
  | none => st

/-- Modelled from the spec: handle validity — the store's current generation
at the handle's index equals the generation captured at creation (section 3). -/
def Store.validB (st : Store α) (h : GenerationalBox) : Bool :=
  match st.slots[h.slotIndex]? with
  | some sl => sl.generation == h.generation
  | none => false

/-- Modelled from the spec: a handle is live when its slot exists, the
generation matches, and the slot is occupied. -/
def Store.liveAt (st : Store α) (h : GenerationalBox) : Prop :=
  ∃ sl, st.slots[h.slotIndex]? = some sl ∧
    sl.generation = h.generation ∧ sl.contents.isSome = true

instance (st : Store α) (h : GenerationalBox) : Decidable (st.liveAt h) := by
  unfold Store.liveAt
  cases st.slots[h.slotIndex]? with
  | none => exact .isFalse (by rintro ⟨sl, hsl, _⟩; cases hsl)
  | some sl =>
      by_cases hg : sl.generation = h.generation
      · by_cases hc : sl.contents.isSome = true
        · exact .isTrue ⟨sl, rfl, hg, hc⟩
        · exact .isFalse (by rintro ⟨sl2, hsl2, _, hc2⟩; cases hsl2; exact hc hc2)
      · exact .isFalse (by rintro ⟨sl2, hsl2, hg2, _⟩; cases hsl2; exact hg hg2)

/-- Modelled from the spec: `generational_box::BorrowError` — the failure
modes of a checked read: the slot was dropped (stale handle / use-after-free)
or an exclusive write view is held (borrow conflict) (section 7). -/
inductive BorrowError where
  | Dropped : BorrowError
  | AlreadyBorrowedMut : BorrowError
deriving DecidableEq, Repr

/-- Modelled from the spec: `generational_box::BorrowMutError` — the failure
modes of a checked write: dropped slot, or an existing view of either kind
(borrow conflict) (section 7). -/
inductive BorrowMutError where
  | Dropped : BorrowMutError
  | AlreadyBorrowed : BorrowMutError
deriving DecidableEq, Repr

/-- Modelled from the spec: acquiring a shared read view
(`GenerationalBox::try_read`, section 4.3): check validity first (stale
handles fail with the use-after-free error), then the borrow state; `Free` or
`SharedBy n` admits another reader, `ExclusiveHeld` is a borrow conflict.
Returns the value visible through the view and the store with the reader
registered. -/
def Store.tryReadAcquire (st : Store α) (h : GenerationalBox) :
    Except BorrowError (α × Store α) :=
  match st.slots[h.slotIndex]? with
  | none => .error .Dropped
  | some sl =>
    if sl.generation = h.generation then
      match sl.contents with
      | none => .error .Dropped
      | some v =>
        match sl.borrow with
        | .ExclusiveHeld => .error .AlreadyBorrowedMut
        | .Free => .ok (v, st.setSlot h.slotIndex ⟨sl.generation, sl.contents, .SharedBy 1⟩)
        | .SharedBy n =>
            .ok (v, st.setSlot h.slotIndex ⟨sl.generation, sl.contents, .SharedBy (n + 1)⟩)
    else .error .Dropped

/-- Modelled from the spec: releasing one shared read view — decrement the
reader count back towards `Free` (section 4.3). -/
def Store.releaseRead (st : Store α) (i : Nat) : Store α :=
  match st.slots[i]? with
  | some sl =>
    match sl.borrow with
    | .SharedBy (n + 1) =>
        st.setSlot i ⟨sl.generation, sl.contents, if n = 0 then .Free else .SharedBy n⟩
    | _ => st
  | none => st

/-- Modelled from the spec: acquiring an exclusive write view
(`GenerationalBox::try_write`, section 4.3): validity first, then the write
succeeds only from `Free`; any existing view is a borrow conflict. Returns
the current value and the store with the slot `ExclusiveHeld`. -/
def Store.tryWriteAcquire (st : Store α) (h : GenerationalBox) :
    Except BorrowMutError (α × Store α) :=
  match st.slots[h.slotIndex]? with
  | none => .error .Dropped
  | some sl =>
    if sl.generation = h.generation then
      match sl.contents with
      | none => .error .Dropped
      | some v =>
        match sl.borrow with
        | .Free => .ok (v, st.setSlot h.slotIndex ⟨sl.generation, sl.contents, .ExclusiveHeld⟩)
        | _ => .error .AlreadyBorrowed
    else .error .Dropped

/-- Modelled from the spec: releasing an exclusive write view, storing the
final contents `v` of the view and returning the slot to `Free`
(section 4.3). -/
def Store.writeRelease (st : Store α) (i : Nat) (v : α) : Store α :=
  match st.slots[i]? with
  | some sl => st.setSlot i ⟨sl.generation, some v, .Free⟩
  | none => st

/-- Modelled from the spec: a `generational_box::Owner` — the lease-holder
over the set of slot indices created on behalf of one scope (section 4.2). -/
structure Owner where
  ownedIndices : List Nat
deriving DecidableEq, Repr

/-- Modelled from the spec: the scope-context registry plus the process-wide
store, as seen by this module: the root-context `Store` (absent until first
installed), one `Owner` context per scope, and the current scope id (absent
outside a virtual dom). -/
structure Runtime (α : Type) where
  store : Option (Store α)
  owners : List (ScopeId × Owner)
  currentScope : Option ScopeId
deriving DecidableEq, Repr

/-- The ambient store of the runtime (the single process-wide arena; empty
until installed). -/
def Runtime.getStore (rt : Runtime α) : Store α := rt.store.getD (Store.empty α)

/-- Replace or register the `Owner` context of one scope in the registry. -/
def setOwner (os : List (ScopeId × Owner)) (s : ScopeId) (o : Owner) :
    List (ScopeId × Owner) :=
  match os with
  | [] => [(s, o)]
  | (s1, o1) :: rest => if s1 = s then (s, o) :: rest else (s1, o1) :: setOwner rest s o

/-- Outcome of an operation that may panic (`expect` / unchecked accessors). -/
inductive Outcome (β : Type) where
  | ok : β → Outcome β
  | panicked : Outcome β
deriving DecidableEq, Repr

/-- Models `current_store`: consume the root-context `Store`, installing a
default one (which requires being in a virtual dom) if absent. -/
def current_store (rt : Runtime α) : Outcome (Runtime α) :=
  match rt.store with
  | some _ => .ok rt
  | none =>
    match rt.currentScope with
    | some _ => .ok { rt with store := some (Store.empty α) }
    | none => .panicked

/-- Models `current_owner`: look up the current scope's `Owner` context,
creating one from the store and registering it (`provide_context`, which
requires being in a virtual dom) if absent. The owner is identified by its
scope id. -/
def current_owner (rt : Runtime α) : Outcome (ScopeId × Runtime α) :=
  match rt.currentScope with
  | none => .panicked
  | some s =>
    match rt.owners.lookup s with
    | some _ => .ok (s, rt)
    | none =>
      match current_store rt with
      | .panicked => .panicked
      | .ok rt1 => .ok (s, { rt1 with owners := setOwner rt1.owners s ⟨[]⟩ })

/-- Models `owner_in_scope`: look up the given scope's `Owner` context,
creating one from the store and installing it into that scope
(`provide_context_to_scope`, which requires being in a virtual dom) if
absent. -/
def owner_in_scope (rt : Runtime α) (scope : ScopeId) : Outcome (ScopeId × Runtime α) :=
  match rt.owners.lookup scope with
  | some _ => .ok (scope, rt)
  | none =>
    match current_store rt with
    | .panicked => .panicked
    | .ok rt1 =>
      match rt1.currentScope with
      | none => .panicked
      | some _ => .ok (scope, { rt1 with owners := setOwner rt1.owners scope ⟨[]⟩ })

/-- Modelled from the spec: `Owner::insert` — allocate a slot from the store,
record the returned index in the owner's owned set, return the handle
(section 4.2). -/
def owner_insert (rt : Runtime α) (s : ScopeId) (v : α) : GenerationalBox × Runtime α :=
  let h := (rt.getStore.allocate v).1
  let st1 := (rt.getStore.allocate v).2
  let o := ((rt.owners.lookup s).getD ⟨[]⟩)
  (h, { rt with
          store := some st1
          owners := setOwner rt.owners s ⟨h.slotIndex :: o.ownedIndices⟩ })

/-- Modelled from the spec: `Owner::invalid` — fabricate a handle to a slot
whose generation is immediately stale (section 4.2): a fresh empty slot is
appended with generation 1 while the handle captures generation 0, and the
index is recorded in the owner's owned set. -/
def owner_invalid (rt : Runtime α) (s : ScopeId) : GenerationalBox × Runtime α :=
  let st := rt.getStore
  let h : GenerationalBox := ⟨st.slots.length, 0⟩
  let st1 : Store α := ⟨st.slots ++ [⟨1, none, .Free⟩], st.freeList⟩
  let o := ((rt.owners.lookup s).getD ⟨[]⟩)
  (h, { rt with
          store := some st1
          owners := setOwner rt.owners s ⟨h.slotIndex :: o.ownedIndices⟩ })

/-- Modelled from the spec: Owner teardown — free every owned slot
(section 4.2). -/
def Store.freeAll (st : Store α) (is : List Nat) : Store α :=
  is.foldl Store.free st

/-- Modelled from the spec: scope teardown drops the scope's `Owner`, which
frees every slot it holds (section 2). -/
def Runtime.dropScope (rt : Runtime α) (s : ScopeId) : Runtime α :=
  match rt.owners.lookup s with
  | none => rt
  | some o =>
      { rt with
          store := some (rt.getStore.freeAll o.ownedIndices)
          owners := rt.owners.filter (fun p => decide (p.1 ≠ s)) }

/-- The public state cell (`CopyValue<T>` in `rt.rs`): a `GenerationalBox`
handle plus the id of the scope it was created in. -/
structure CopyValue where
  value : GenerationalBox
  origin_scope : ScopeId
deriving DecidableEq, Repr

/-- Models `impl PartialEq for CopyValue`: `self.value.ptr_eq(&other.value)`
(`rt.rs` lines 176-180). -/
def CopyValue.eq (a b : CopyValue) : Bool :=
  a.value.ptr_eq b.value

/-- Models `CopyValue::new` (`rt.rs` lines 77-85): resolve the current
owner, insert the value through it, and stamp `origin_scope` with
`current_scope_id().expect("in a virtual dom")`. -/
def CopyValue.new (v : α) (rt : Runtime α) : Outcome (CopyValue × Runtime α) :=
  match current_owner rt with
  | .panicked => .panicked
  | .ok (s, rt1) =>
    let h := (owner_insert rt1 s v).1
    let rt2 := (owner_insert rt1 s v).2
    match rt2.currentScope with
    | none => .panicked
    | some sc => .ok (⟨h, sc⟩, rt2)

/-- Models `CopyValue::new_with_caller` (`rt.rs` lines 87-101): identical to
`new` except that the owner insertion also records the given caller location
as debug metadata, which does not affect the resulting cell or state. -/
def CopyValue.new_with_caller (v : α) (_caller : String) (rt : Runtime α) :
    Outcome (CopyValue × Runtime α) :=
  match current_owner rt with
  | .panicked => .panicked
  | .ok (s, rt1) =>
    let h := (owner_insert rt1 s v).1
    let rt2 := (owner_insert rt1 s v).2
    match rt2.currentScope with
    | none => .panicked
    | some sc => .ok (⟨h, sc⟩, rt2)

/-- Models `CopyValue::new_in_scope` (`rt.rs` lines 103-111): resolve the
owner of the given scope, insert the value through it, and stamp
`origin_scope` with that scope. -/
def CopyValue.new_in_scope (v : α) (scope : ScopeId) (rt : Runtime α) :
    Outcome (CopyValue × Runtime α) :=
  match owner_in_scope rt scope with
  | .panicked => .panicked
  | .ok (s, rt1) =>
    let h := (owner_insert rt1 s v).1
    let rt2 := (owner_insert rt1 s v).2
    .ok (⟨h, scope⟩, rt2)

/-- Models `CopyValue::invalid` (`rt.rs` lines 113-120): resolve the current
owner, fabricate a pre-invalidated handle through it, and stamp
`origin_scope` with the current scope. -/
def CopyValue.invalid (rt : Runtime α) : Outcome (CopyValue × Runtime α) :=
  match current_owner rt with
  | .panicked => .panicked
  | .ok (s, rt1) =>
    let h := (owner_invalid rt1 s).1
    let rt2 := (owner_invalid rt1 s).2
    match rt2.currentScope with
    | none => .panicked
    | some sc => .ok (⟨h, sc⟩, rt2)

/-- Models `CopyValue::origin_scope` (`rt.rs` lines 122-125). -/
def CopyValue.origin_scope_get (c : CopyValue) : ScopeId :=
  c.origin_scope

/-- Models `CopyValue::try_read` (`rt.rs` lines 127-131): delegate to the
handle's checked read. On success the returned store holds the live read
view. -/
def CopyValue.try_read (c : CopyValue) (st : Store α) : Except BorrowError (α × Store α) :=
  st.tryReadAcquire c.value

/-- Models `CopyValue::read` (`rt.rs` lines 133-137): the unchecked read —
panic instead of returning the error. -/
def CopyValue.read (c : CopyValue) (st : Store α) : Outcome (α × Store α) :=
  match c.try_read st with
  | .ok x => .ok x
  | .error _ => .panicked

/-- Models `CopyValue::try_write` (`rt.rs` lines 139-143): delegate to the
handle's checked write. On success the returned store holds the exclusive
write view. -/
def CopyValue.try_write (c : CopyValue) (st : Store α) :
    Except BorrowMutError (α × Store α) :=
  st.tryWriteAcquire c.value

/-- Models `CopyValue::write` (`rt.rs` lines 145-149): the unchecked write —
panic instead of returning the error. -/
def CopyValue.write (c : CopyValue) (st : Store α) : Outcome (α × Store α) :=
  match c.try_write st with
  | .ok x => .ok x
  | .error _ => .panicked

/-- Models `CopyValue::set` (`rt.rs` lines 151-154): `*self.write() = value`
— acquire the write view, replace the contents, release the view when the
statement ends. -/
def CopyValue.set (c : CopyValue) (v : α) (st : Store α) : Outcome (Store α) :=
  match c.write st with
  | .panicked => .panicked
  | .ok (_, st1) => .ok (st1.writeRelease c.value.slotIndex v)

/-- Models `CopyValue::with` (`rt.rs` lines 156-160): apply `f` to a shared
view of the contents; the view is released before the call returns. (`with`
is a reserved word in Lean, hence the name.) -/
def CopyValue.with_fn (c : CopyValue) (f : α → β) (st : Store α) :
    Outcome (β × Store α) :=
  match c.read st with
  | .panicked => .panicked
  | .ok (v, st1) => .ok (f v, st1.releaseRead c.value.slotIndex)

/-- Models `CopyValue::with_mut` (`rt.rs` lines 162-166): apply `f` to an
exclusive view of the contents; the Rust closure `FnOnce(&mut T) -> O` is
embedded as `f : α → α × β`, returning the final contents of the view and
the closure's result. The view is released before the call returns. -/
def CopyValue.with_mut (c : CopyValue) (f : α → α × β) (st : Store α) :
    Outcome (β × Store α) :=
  match c.write st with
  | .panicked => .panicked
  | .ok (v, st1) => .ok ((f v).2, st1.writeRelease c.value.slotIndex (f v).1)

/-- Models `CopyValue::value` (`rt.rs` lines 169-174): `self.read().clone()`
— read and clone the contents in one step; the temporary read view is
dropped when the statement ends. (The Rust method is named `value`, which in
this embedding is the handle field's name, hence `value_get`.) -/
def CopyValue.value_get (c : CopyValue) (st : Store α) : Outcome (α × Store α) :=
  match c.read st with
  | .panicked => .panicked
  | .ok (v, st1) => .ok (v, st1.releaseRead c.value.slotIndex)

/-- Models `impl Serialize for CopyValue` (`rt.rs` lines 51-59): serialize
via `self.value.read()` — a read-through of the current contents, with the
component serializer `serT`; a stale handle or borrow conflict panics as in
`read`. -/
def CopyValue.serialize (c : CopyValue) (serT : α → σ) (st : Store α) : Outcome σ :=
  match c.read st with
  | .panicked => .panicked
  | .ok (v, _) => .ok (serT v)

/-- Models `impl Deserialize for CopyValue` (`rt.rs` lines 61-71):
deserialize a value with the component deserializer `deT` (propagating its
error), then construct a brand-new cell via `Self::new(value)`. -/
def CopyValue.deserialize (deT : σ → Except ε α) (data : σ) (rt : Runtime α) :
    Except ε (Outcome (CopyValue × Runtime α)) :=
  match deT data with
  | .error e => .error e
  | .ok v => .ok (CopyValue.new v rt)

/-- Helper: the slot at index `i` of the store exists and is empty. -/
def Store.slotEmptyAt (st : Store α) (i : Nat) : Bool :=
  match st.slots[i]? with
  | some sl => sl.contents.isNone
  | none => false

/-- Store well-formedness (spec section 3 invariants): the free-list has no
duplicate indices, and every free-list index addresses an existing, empty
slot. -/
def Store.WF (st : Store α) : Prop :=
  st.freeList.Nodup ∧ ∀ i ∈ st.freeList, st.slotEmptyAt i = true

instance (st : Store α) : Decidable st.WF := by
  unfold Store.WF
  exact inferInstance

/-- A cell is readable in a store when its slot exists with the matching
generation, holds `w`, and no view is outstanding. -/
def readable (st : Store α) (c : CopyValue) (w : α) : Prop :=
  st.slots[c.value.slotIndex]? = some ⟨c.value.generation, some w, .Free⟩

instance [DecidableEq α] (st : Store α) (c : CopyValue) (w : α) :
    Decidable (readable st c w) := by
  unfold readable
  infer_instance

/-! ## Shared lemmas -/

theorem GenerationalBox.ptr_eq_iff (a b : GenerationalBox) :
    a.ptr_eq b = true ↔ a.slotIndex = b.slotIndex ∧ a.generation = b.generation := by
  simp [GenerationalBox.ptr_eq]

theorem CopyValue.eq_iff (a b : CopyValue) :
    CopyValue.eq a b = true ↔
      a.value.slotIndex = b.value.slotIndex ∧ a.value.generation = b.value.generation := by
  simp [CopyValue.eq, GenerationalBox.ptr_eq_iff]

theorem lookup_setOwner_self (os : List (ScopeId × Owner)) (s : ScopeId) (o : Owner) :
    (setOwner os s o).lookup s = some o := by
  induction os with
  | nil => simp [setOwner, List.lookup]
  | cons p rest ih =>
      obtain ⟨s1, o1⟩ := p
      by_cases h : s1 = s
      · subst h
        simp [setOwner, List.lookup]
      · have hbeq : (s == s1) = false := beq_eq_false_iff_ne.mpr (Ne.symm h)
        simp [setOwner, h, List.lookup, hbeq, ih]

theorem lookup_setOwner_ne (os : List (ScopeId × Owner)) (s s' : ScopeId) (o : Owner)
    (h : s' ≠ s) : (setOwner os s o).lookup s' = os.lookup s' := by
  have hbeq : (s' == s) = false := beq_eq_false_iff_ne.mpr h
  induction os with
  | nil => simp [setOwner, List.lookup, hbeq]
  | cons p rest ih =>
      obtain ⟨s1, o1⟩ := p
      by_cases h1 : s1 = s
      · subst h1
        simp [setOwner, List.lookup, hbeq]
      · simp [setOwner, h1, List.lookup, ih]

theorem Store.slotEmptyAt_lt (st : Store α) (i : Nat) (h : st.slotEmptyAt i = true) :
    i < st.slots.length := by
  unfold Store.slotEmptyAt at h
  cases hsl : st.slots[i]? with
  | none => rw [hsl] at h; cases h
  | some sl => exact (List.getElem?_eq_some.mp hsl).1

theorem Store.slotEmptyAt_contents (st : Store α) (i : Nat) (sl : Slot α)
    (h : st.slotEmptyAt i = true) (hsl : st.slots[i]? = some sl) : sl.contents = none := by
  unfold Store.slotEmptyAt at h
  rw [hsl] at h
  simpa [Option.isNone_iff_eq_none] using h

theorem Store.allocate_getElem (st : Store α) (v : α) (hwf : st.WF) :
    ((st.allocate v).2).slots[(st.allocate v).1.slotIndex]? =
      some ⟨(st.allocate v).1.generation, some v, .Free⟩ := by
  obtain ⟨hnd, hmem⟩ := hwf
  cases hfl : st.freeList with
  | nil =>
      simp only [Store.allocate, hfl]
      exact List.getElem?_concat_length _ _
  | cons i rest =>
      have hi : st.slotEmptyAt i = true := hmem i (by rw [hfl]; exact List.mem_cons_self i rest)
      have hlt : i < st.slots.length := st.slotEmptyAt_lt i hi
      simp only [Store.allocate, hfl]
      exact List.getElem?_set_self hlt

theorem Store.allocate_WF (st : Store α) (v : α) (hwf : st.WF) :
    ((st.allocate v).2).WF := by
  obtain ⟨hnd, hmem⟩ := hwf
  cases hfl : st.freeList with
  | nil =>
      simp only [Store.allocate, hfl]
      exact ⟨List.nodup_nil, by intro i hi; cases hi⟩
  | cons i rest =>
      rw [hfl] at hnd
      constructor
      · simp only [Store.allocate, hfl]
        exact hnd.of_cons
      · intro j hj
        simp only [Store.allocate, hfl] at hj ⊢
        have hji : j ≠ i := by
          intro hcontra
          subst hcontra
          exact (List.nodup_cons.mp hnd).1 hj
        have hmemj : st.slotEmptyAt j = true :=
          hmem j (by rw [hfl]; exact List.mem_cons_of_mem i hj)
        unfold Store.slotEmptyAt at hmemj ⊢
        rw [List.getElem?_set_ne (Ne.symm hji)]
        exact hmemj

theorem Store.allocate_succ_index_ne (st : Store α) (v w : α) (hwf : st.WF) :
    (st.allocate v).1.slotIndex ≠ (((st.allocate v).2).allocate w).1.slotIndex := by
  obtain ⟨hnd, hmem⟩ := hwf
  cases hfl : st.freeList with
  | nil =>
      simp only [Store.allocate, hfl, List.length_append, List.length_cons, List.length_nil]
      omega
  | cons i rest =>
      have hi : st.slotEmptyAt i = true := hmem i (by rw [hfl]; exact List.mem_cons_self i rest)
      have hlt : i < st.slots.length := st.slotEmptyAt_lt i hi
      rw [hfl] at hnd
      cases hrest : rest with
      | nil =>
          simp only [Store.allocate, hfl, hrest, List.length_set]
          omega
      | cons j rest2 =>
          have hji : j ≠ i := by
            intro hcontra
            subst hcontra
            exact (List.nodup_cons.mp hnd).1 (by rw [hrest]; exact List.mem_cons_self j rest2)
          simp only [Store.allocate, hfl, hrest]
          exact Ne.symm hji

theorem Store.allocate_fresh (st : Store α) (v : α) (h0 : GenerationalBox)
    (hwf : st.WF) (hlive : st.liveAt h0) :
    GenerationalBox.ptr_eq (st.allocate v).1 h0 = false := by
  obtain ⟨hnd, hmem⟩ := hwf
  obtain ⟨sl, hsl, hgen, hocc⟩ := hlive
  rw [← Bool.not_eq_true, GenerationalBox.ptr_eq_iff]
  rintro ⟨hidx, _⟩
  cases hfl : st.freeList with
  | nil =>
      rw [Store.allocate, hfl] at hidx
      simp only at hidx
      have hlt : h0.slotIndex < st.slots.length := (List.getElem?_eq_some.mp hsl).1
      omega
  | cons i rest =>
      rw [Store.allocate, hfl] at hidx
      simp only at hidx
      have hi : st.slotEmptyAt i = true := hmem i (by rw [hfl]; exact List.mem_cons_self i rest)
      rw [hidx] at hi
      have := st.slotEmptyAt_contents h0.slotIndex sl hi hsl
      rw [this] at hocc
      cases hocc

theorem readable_tryRead (st : Store α) (c : CopyValue) (w : α) (h : readable st c w) :
    c.try_read st =
      .ok (w, st.setSlot c.value.slotIndex ⟨c.value.generation, some w, .SharedBy 1⟩) := by
  have h' : st.slots[c.value.slotIndex]? = some ⟨c.value.generation, some w, .Free⟩ := h
  simp [CopyValue.try_read, Store.tryReadAcquire, h']

theorem readable_tryWrite (st : Store α) (c : CopyValue) (w : α) (h : readable st c w) :
    c.try_write st =
      .ok (w, st.setSlot c.value.slotIndex ⟨c.value.generation, some w, .ExclusiveHeld⟩) := by
  have h' : st.slots[c.value.slotIndex]? = some ⟨c.value.generation, some w, .Free⟩ := h
  simp [CopyValue.try_write, Store.tryWriteAcquire, h']

theorem setSlot_getElem (st : Store α) (i : Nat) (sl : Slot α) (hlt : i < st.slots.length) :
    (st.setSlot i sl).slots[i]? = some sl := by
  simp only [Store.setSlot]
  exact List.getElem?_set_self hlt

theorem readable_lt (st : Store α) (c : CopyValue) (w : α) (h : readable st c w) :
    c.value.slotIndex < st.slots.length :=
  (List.getElem?_eq_some.mp h).1

theorem readable_set (st : Store α) (c : CopyValue) (w v : α) (h : readable st c w) :
    c.set v st = .ok (st.setSlot c.value.slotIndex ⟨c.value.generation, some v, .Free⟩) := by
  have hlt := readable_lt st c w h
  rw [CopyValue.set, CopyValue.write, readable_tryWrite st c w h]
  simp only
  rw [Store.writeRelease, setSlot_getElem st _ _ hlt]
  simp [Store.setSlot, List.set_set]

theorem readable_setSlot (st : Store α) (c : CopyValue) (w v : α) (h : readable st c w) :
    readable (st.setSlot c.value.slotIndex ⟨c.value.generation, some v, .Free⟩) c v :=
  setSlot_getElem st _ _ (readable_lt st c w h)

theorem current_owner_ok (rt : Runtime α) (s : ScopeId) (hs : rt.currentScope = some s) :
    ∃ rt1, current_owner rt = .ok (s, rt1) ∧
      rt1.getStore = rt.getStore ∧ rt1.currentScope = rt.currentScope ∧
      (∀ s', s' ≠ s → rt1.owners.lookup s' = rt.owners.lookup s') := by
  cases hlk : rt.owners.lookup s with
  | some o =>
      refine ⟨rt, ?_, rfl, rfl, fun _ _ => rfl⟩
      simp only [current_owner, hs, hlk]
  | none =>
      cases hst : rt.store with
      | some st =>
          refine ⟨{ rt with owners := setOwner rt.owners s ⟨[]⟩ }, ?_, rfl, rfl,
            fun s' hne => lookup_setOwner_ne _ s s' _ hne⟩
          simp only [current_owner, hs, hlk, current_store, hst]
      | none =>
          refine ⟨{ rt with
                      store := some (Store.empty α)
                      owners := setOwner rt.owners s ⟨[]⟩ }, ?_, ?_, rfl,
            fun s' hne => lookup_setOwner_ne _ s s' _ hne⟩
          · simp only [current_owner, hs, hlk, current_store, hst]
          · simp [Runtime.getStore, hst]

theorem owner_in_scope_ok (rt : Runtime α) (scope : ScopeId) (cs : ScopeId)
    (hs : rt.currentScope = some cs) :
    ∃ rt1, owner_in_scope rt scope = .ok (scope, rt1) ∧
      rt1.getStore = rt.getStore ∧ rt1.currentScope = rt.currentScope ∧
      (∀ s', s' ≠ scope → rt1.owners.lookup s' = rt.owners.lookup s') := by
  cases hlk : rt.owners.lookup scope with
  | some o =>
      refine ⟨rt, ?_, rfl, rfl, fun _ _ => rfl⟩
      simp only [owner_in_scope, hlk]
  | none =>
      cases hst : rt.store with
      | some st =>
          refine ⟨{ rt with owners := setOwner rt.owners scope ⟨[]⟩ }, ?_, rfl, rfl,
            fun s' hne => lookup_setOwner_ne _ scope s' _ hne⟩
          simp only [owner_in_scope, hlk, current_store, hst, hs]
      | none =>
          refine ⟨{ rt with
                      store := some (Store.empty α)
                      owners := setOwner rt.owners scope ⟨[]⟩ }, ?_, ?_, rfl,
            fun s' hne => lookup_setOwner_ne _ scope s' _ hne⟩
          · simp only [owner_in_scope, hlk, current_store, hst, hs]
          · simp [Runtime.getStore, hst]

theorem owner_insert_spec (rt : Runtime α) (s : ScopeId) (v : α) :
    (owner_insert rt s v).1 = (rt.getStore.allocate v).1 ∧
    (owner_insert rt s v).2.getStore = (rt.getStore.allocate v).2 ∧
    (owner_insert rt s v).2.currentScope = rt.currentScope ∧
    (∃ o, (owner_insert rt s v).2.owners.lookup s = some o ∧
       (rt.getStore.allocate v).1.slotIndex ∈ o.ownedIndices) ∧
    (∀ s', s' ≠ s → (owner_insert rt s v).2.owners.lookup s' = rt.owners.lookup s') := by
  refine ⟨rfl, by simp [owner_insert, Runtime.getStore], rfl, ?_, fun s' hne => ?_⟩
  · exact ⟨_, lookup_setOwner_self _ s _, List.mem_cons_self _ _⟩
  · exact lookup_setOwner_ne _ s s' _ hne

theorem CopyValue.new_spec (v : α) (rt : Runtime α) (s : ScopeId)
    (hs : rt.currentScope = some s) (hwf : rt.getStore.WF) :
    ∃ c rt2, CopyValue.new v rt = .ok (c, rt2) ∧
      c.origin_scope = s ∧
      c.value = (rt.getStore.allocate v).1 ∧
      rt2.getStore = (rt.getStore.allocate v).2 ∧
      rt2.currentScope = some s ∧
      (∃ o, rt2.owners.lookup s = some o ∧ c.value.slotIndex ∈ o.ownedIndices) ∧
      readable rt2.getStore c v ∧ rt2.getStore.WF ∧
      (∀ s', s' ≠ s → rt2.owners.lookup s' = rt.owners.lookup s') := by
  obtain ⟨rt1, hco, hst1, hcs1, hlk1⟩ := current_owner_ok rt s hs
  obtain ⟨hh, hst2, hcs2, ⟨o, hlko, hmemo⟩, hlk2⟩ := owner_insert_spec rt1 s v
  rw [CopyValue.new, hco]
  simp only [hcs2, hcs1, hs]
  refine ⟨_, _, rfl, rfl, ?_, ?_, ?_, ⟨o, ?_, ?_⟩, ?_, ?_, ?_⟩
  · rw [hh, hst1]
  · rw [hst2, hst1]
  · rw [hcs2, hcs1, hs]
  · exact hlko
  · show (owner_insert rt1 s v).1.slotIndex ∈ o.ownedIndices
    rw [hh]
    exact hmemo
  · show readable (owner_insert rt1 s v).2.getStore ⟨(owner_insert rt1 s v).1, s⟩ v
    rw [hst2, hst1]
    show ((rt.getStore.allocate v).2).slots[(owner_insert rt1 s v).1.slotIndex]? = _
    rw [hh, hst1]
    exact rt.getStore.allocate_getElem v hwf
  · rw [hst2, hst1]
    exact rt.getStore.allocate_WF v hwf
  · intro s' hne
    rw [hlk2 s' hne, hlk1 s' hne]

theorem releaseRead_setSlot (st : Store α) (i g : Nat) (w : α)
    (hlt : i < st.slots.length) :
    (st.setSlot i ⟨g, some w, .SharedBy 1⟩).releaseRead i =
      st.setSlot i ⟨g, some w, .Free⟩ := by
  rw [Store.releaseRead]
  rw [setSlot_getElem st i _ hlt]
  simp [Store.setSlot, List.set_set]

theorem writeRelease_setSlot (st : Store α) (i g : Nat) (c0 : Option α) (b : BorrowState)
    (v : α) (hlt : i < st.slots.length) :
    (st.setSlot i ⟨g, c0, b⟩).writeRelease i v = st.setSlot i ⟨g, some v, .Free⟩ := by
  rw [Store.writeRelease]
  rw [setSlot_getElem st i _ hlt]
  simp [Store.setSlot, List.set_set]

theorem stale_tryRead (st : Store α) (c : CopyValue)
    (h : st.validB c.value = false) : c.try_read st = .error .Dropped := by
  rw [CopyValue.try_read, Store.tryReadAcquire]
  rw [Store.validB] at h
  cases hsl : st.slots[c.value.slotIndex]? with
  | none => rfl
  | some sl =>
      rw [hsl] at h
      have hne : ¬sl.generation = c.value.generation := by simpa using h
      simp [hne]

theorem stale_tryWrite (st : Store α) (c : CopyValue)
    (h : st.validB c.value = false) : c.try_write st = .error .Dropped := by
  rw [CopyValue.try_write, Store.tryWriteAcquire]
  rw [Store.validB] at h
  cases hsl : st.slots[c.value.slotIndex]? with
  | none => rfl
  | some sl =>
      rw [hsl] at h
      have hne : ¬sl.generation = c.value.generation := by simpa using h
      simp [hne]

theorem exclusive_tryRead (st : Store α) (c : CopyValue) (w : α)
    (h : st.slots[c.value.slotIndex]? = some ⟨c.value.generation, some w, .ExclusiveHeld⟩) :
    c.try_read st = .error .AlreadyBorrowedMut := by
  simp [CopyValue.try_read, Store.tryReadAcquire, h]

theorem exclusive_tryWrite (st : Store α) (c : CopyValue) (w : α)
    (h : st.slots[c.value.slotIndex]? = some ⟨c.value.generation, some w, .ExclusiveHeld⟩) :
    c.try_write st = .error .AlreadyBorrowed := by
  simp [CopyValue.try_write, Store.tryWriteAcquire, h]

/-! ## Claim theorems -/

/-- C1: Equality of two state cells (`CopyValue`) is pointer-style identity
of the underlying slot and generation: it holds iff both handle fields match
(contained values never enter the comparison, which reads no store); cells
built from the same allocation compare equal whatever their origin scopes;
and cells holding two distinct allocations of the very same value compare
unequal. -/
theorem C1_state_cell_equality (c1 c2 : CopyValue) (st : Store α) (v : α)
    (s s' : ScopeId) (hwf : st.WF) :
    (CopyValue.eq c1 c2 = true ↔
      c1.value.slotIndex = c2.value.slotIndex ∧
      c1.value.generation = c2.value.generation) ∧
    CopyValue.eq ⟨(st.allocate v).1, s⟩ ⟨(st.allocate v).1, s'⟩ = true ∧
    CopyValue.eq ⟨(st.allocate v).1, s⟩
      ⟨(((st.allocate v).2).allocate v).1, s'⟩ = false := by
  refine ⟨CopyValue.eq_iff c1 c2, (CopyValue.eq_iff _ _).mpr ⟨rfl, rfl⟩, ?_⟩
  rw [← Bool.not_eq_true, CopyValue.eq_iff]
  rintro ⟨hidx, _⟩
  exact st.allocate_succ_index_ne v v hwf hidx

/-- C1 witness: the equality characterization, clone-equality and
distinct-allocation inequality evaluated on the empty store. -/
theorem C1_state_cell_equality_witness :
    (Store.empty Nat).WF ∧
    ((CopyValue.eq ⟨⟨0, 0⟩, 0⟩ ⟨⟨0, 0⟩, 1⟩ = true ↔
        (⟨⟨0, 0⟩, 0⟩ : CopyValue).value.slotIndex =
          (⟨⟨0, 0⟩, 1⟩ : CopyValue).value.slotIndex ∧
        (⟨⟨0, 0⟩, 0⟩ : CopyValue).value.generation =
          (⟨⟨0, 0⟩, 1⟩ : CopyValue).value.generation) ∧
      CopyValue.eq ⟨((Store.empty Nat).allocate 5).1, 0⟩
        ⟨((Store.empty Nat).allocate 5).1, 1⟩ = true ∧
      CopyValue.eq ⟨((Store.empty Nat).allocate 5).1, 0⟩
        ⟨((((Store.empty Nat).allocate 5).2).allocate 5).1, 1⟩ = false) :=
  ⟨by decide, C1_state_cell_equality ⟨⟨0, 0⟩, 0⟩ ⟨⟨0, 0⟩, 1⟩ (Store.empty Nat) 5 0 1 (by decide)⟩

/-- C10: State-cell equality never inspects handle validity: a cell compares
equal to itself (hence to every bitwise copy of itself) even in a store where
its handle is stale, equality is symmetric and transitive, and it is
determined solely by the slot index and generation captured at creation. -/
theorem C10_eq_equivalence (a b c : CopyValue) (st : Store α)
    (_hstale : st.validB a.value = false) :
    CopyValue.eq a a = true ∧
    CopyValue.eq a b = CopyValue.eq b a ∧
    (CopyValue.eq a b = true → CopyValue.eq b c = true → CopyValue.eq a c = true) ∧
    (CopyValue.eq a b = true ↔
      a.value.slotIndex = b.value.slotIndex ∧
      a.value.generation = b.value.generation) := by
  refine ⟨(CopyValue.eq_iff a a).mpr ⟨rfl, rfl⟩, ?_, ?_, CopyValue.eq_iff a b⟩
  · rw [Bool.eq_iff_iff, CopyValue.eq_iff, CopyValue.eq_iff]
    constructor <;> rintro ⟨h1, h2⟩ <;> exact ⟨h1.symm, h2.symm⟩
  · rw [CopyValue.eq_iff, CopyValue.eq_iff, CopyValue.eq_iff]
    rintro ⟨h1, h2⟩ ⟨h3, h4⟩
    exact ⟨h1.trans h3, h2.trans h4⟩

/-- C10 witness: the handle of the cell is stale in a store produced by an
actual free (scope teardown of its slot), and equality still behaves as an
equivalence determined by the handle fields. -/
theorem C10_eq_equivalence_witness :
    (((⟨[⟨0, some (5 : Nat), .Free⟩], []⟩ : Store Nat).free 0).validB
        (⟨⟨0, 0⟩, 0⟩ : CopyValue).value = false) ∧
    (CopyValue.eq ⟨⟨0, 0⟩, 0⟩ ⟨⟨0, 0⟩, 0⟩ = true ∧
      CopyValue.eq ⟨⟨0, 0⟩, 0⟩ ⟨⟨1, 2⟩, 0⟩ = CopyValue.eq ⟨⟨1, 2⟩, 0⟩ ⟨⟨0, 0⟩, 0⟩ ∧
      (CopyValue.eq ⟨⟨0, 0⟩, 0⟩ ⟨⟨1, 2⟩, 0⟩ = true →
        CopyValue.eq ⟨⟨1, 2⟩, 0⟩ ⟨⟨1, 2⟩, 3⟩ = true →
        CopyValue.eq ⟨⟨0, 0⟩, 0⟩ ⟨⟨1, 2⟩, 3⟩ = true) ∧
      (CopyValue.eq ⟨⟨0, 0⟩, 0⟩ ⟨⟨1, 2⟩, 0⟩ = true ↔
        (⟨⟨0, 0⟩, 0⟩ : CopyValue).value.slotIndex =
          (⟨⟨1, 2⟩, 0⟩ : CopyValue).value.slotIndex ∧
        (⟨⟨0, 0⟩, 0⟩ : CopyValue).value.generation =
          (⟨⟨1, 2⟩, 0⟩ : CopyValue).value.generation)) :=
  ⟨by decide, C10_eq_equivalence ⟨⟨0, 0⟩, 0⟩ ⟨⟨1, 2⟩, 0⟩ ⟨⟨1, 2⟩, 3⟩
    ((⟨[⟨0, some 5, .Free⟩], []⟩ : Store Nat).free 0) (by decide)⟩

/-- C2: Creating a state cell and cloning it (a `Copy` is bitwise, so a clone
is the identical cell value) yields two cells addressing the same slot: a
`set` through the clone is observed by a subsequent `try_read` through the
original, and vice versa. -/
theorem C2_clone_aliasing (v w : α) (rt : Runtime α) (s : ScopeId)
    (hs : rt.currentScope = some s) (hwf : rt.getStore.WF) :
    ∃ c1 rt1, CopyValue.new v rt = .ok (c1, rt1) ∧
      ∀ c2 : CopyValue, c2 = c1 →
        c2.value = c1.value ∧
        (∃ st2, c2.set w rt1.getStore = .ok st2 ∧
          ∃ st3, c1.try_read st2 = .ok (w, st3)) ∧
        (∃ st2, c1.set w rt1.getStore = .ok st2 ∧
          ∃ st3, c2.try_read st2 = .ok (w, st3)) := by
  obtain ⟨c1, rt1, hnew, -, -, -, -, -, hread, -, -⟩ := CopyValue.new_spec v rt s hs hwf
  refine ⟨c1, rt1, hnew, ?_⟩
  rintro c2 rfl
  refine ⟨rfl, ?_, ?_⟩ <;>
    exact ⟨_, readable_set _ c2 v w hread,
      _, readable_tryRead _ c2 w (readable_setSlot _ c2 v w hread)⟩

/-- C2 witness: the aliasing property evaluated on a fresh runtime in scope 0
with v = 5, w = 6. -/
theorem C2_clone_aliasing_witness :
    ((⟨none, [], some 0⟩ : Runtime Nat).currentScope = some 0) ∧
    ((⟨none, [], some 0⟩ : Runtime Nat).getStore.WF) ∧
    (∃ c1 rt1, CopyValue.new (5 : Nat) ⟨none, [], some 0⟩ = .ok (c1, rt1) ∧
      ∀ c2 : CopyValue, c2 = c1 →
        c2.value = c1.value ∧
        (∃ st2, c2.set 6 rt1.getStore = .ok st2 ∧
          ∃ st3, c1.try_read st2 = .ok (6, st3)) ∧
        (∃ st2, c1.set 6 rt1.getStore = .ok st2 ∧
          ∃ st3, c2.try_read st2 = .ok (6, st3))) :=
  ⟨rfl, by decide, C2_clone_aliasing 5 6 ⟨none, [], some 0⟩ 0 rfl (by decide)⟩

/-- C3: `CopyValue::new(v)` resolves the current scope's owner — creating and
registering one via the scope registry if absent — inserts `v` through that
owner (the new cell's slot index is recorded in the owner registered for the
current scope, and the slot holds `v`), and stamps `origin_scope` with the
caller's current scope id. -/
theorem C3_new_resolves_current_owner (v : α) (rt : Runtime α) (s : ScopeId)
    (hs : rt.currentScope = some s) (hwf : rt.getStore.WF) :
    ∃ c rt1, CopyValue.new v rt = .ok (c, rt1) ∧
      c.origin_scope = s ∧
      (∃ o, rt1.owners.lookup s = some o ∧ c.value.slotIndex ∈ o.ownedIndices) ∧
      readable rt1.getStore c v := by
  obtain ⟨c, rt1, hnew, horig, -, -, -, hown, hread, -, -⟩ := CopyValue.new_spec v rt s hs hwf
  exact ⟨c, rt1, hnew, horig, hown, hread⟩

/-- C3 witness: creating a cell on a runtime with no store and no owner yet,
in current scope 2. -/
theorem C3_new_resolves_current_owner_witness :
    ((⟨none, [], some 2⟩ : Runtime Nat).currentScope = some 2) ∧
    ((⟨none, [], some 2⟩ : Runtime Nat).getStore.WF) ∧
    (∃ c rt1, CopyValue.new (9 : Nat) ⟨none, [], some 2⟩ = .ok (c, rt1) ∧
      c.origin_scope = 2 ∧
      (∃ o, rt1.owners.lookup 2 = some o ∧ c.value.slotIndex ∈ o.ownedIndices) ∧
      readable rt1.getStore c 9) :=
  ⟨rfl, by decide, C3_new_resolves_current_owner 9 ⟨none, [], some 2⟩ 2 rfl (by decide)⟩

/-- C4: `CopyValue::new_in_scope(v, scope)` inserts `v` through the owner of
scope `scope` — creating and installing one in that scope if absent — rather
than through the caller's own scope's owner (whose registry entry is left
untouched when the caller's scope differs), and stamps `origin_scope` with
`scope`. -/
theorem C4_new_in_scope_targets_given_scope (v : α) (scope : ScopeId)
    (rt : Runtime α) (cs : ScopeId)
    (hs : rt.currentScope = some cs) (hwf : rt.getStore.WF) :
    ∃ c rt1, CopyValue.new_in_scope v scope rt = .ok (c, rt1) ∧
      c.origin_scope = scope ∧
      (∃ o, rt1.owners.lookup scope = some o ∧ c.value.slotIndex ∈ o.ownedIndices) ∧
      readable rt1.getStore c v ∧
      (cs ≠ scope → rt1.owners.lookup cs = rt.owners.lookup cs) := by
  obtain ⟨rt1, hois, hst1, hcs1, hlk1⟩ := owner_in_scope_ok rt scope cs hs
  obtain ⟨hh, hst2, hcs2, ⟨o, hlko, hmemo⟩, hlk2⟩ := owner_insert_spec rt1 scope v
  rw [CopyValue.new_in_scope, hois]
  refine ⟨_, _, rfl, rfl, ⟨o, hlko, ?_⟩, ?_, ?_⟩
  · show (owner_insert rt1 scope v).1.slotIndex ∈ o.ownedIndices
    rw [hh]
    exact hmemo
  · show readable (owner_insert rt1 scope v).2.getStore ⟨(owner_insert rt1 scope v).1, scope⟩ v
    show ((owner_insert rt1 scope v).2.getStore).slots[(owner_insert rt1 scope v).1.slotIndex]? = _
    rw [hh, hst2, hst1]
    exact rt.getStore.allocate_getElem v hwf
  · intro hne
    rw [hlk2 cs hne, hlk1 cs hne]

/-- C4 witness: creating a cell in scope 7 from current scope 1; the cell is
owned by scope 7 and scope 1's registry entry stays absent. -/
theorem C4_new_in_scope_targets_given_scope_witness :
    ((⟨none, [], some 1⟩ : Runtime Nat).currentScope = some 1) ∧
    ((⟨none, [], some 1⟩ : Runtime Nat).getStore.WF) ∧
    (∃ c rt1, CopyValue.new_in_scope (4 : Nat) 7 ⟨none, [], some 1⟩ = .ok (c, rt1) ∧
      c.origin_scope = 7 ∧
      (∃ o, rt1.owners.lookup 7 = some o ∧ c.value.slotIndex ∈ o.ownedIndices) ∧
      readable rt1.getStore c 4 ∧
      ((1 : ScopeId) ≠ 7 → rt1.owners.lookup 1 = ([] : List (ScopeId × Owner)).lookup 1)) :=
  ⟨rfl, by decide, C4_new_in_scope_targets_given_scope 4 7 ⟨none, [], some 1⟩ 1 rfl (by decide)⟩

/-- C5: `origin_scope` is informational only: two cells with the same handle
but (possibly) different `origin_scope` fields produce identical outcomes
under every access operation — `try_read`, `read`, `try_write`, `write`,
`set`, `with`, `with_mut` and `value` depend only on the handle and the
store's borrow state. -/
theorem C5_origin_scope_informational (c1 c2 : CopyValue) (st : Store α)
    (v : α) (f : α → β) (g : α → α × β) (h : c1.value = c2.value) :
    c1.try_read st = c2.try_read st ∧
    c1.read st = c2.read st ∧
    c1.try_write st = c2.try_write st ∧
    c1.write st = c2.write st ∧
    c1.set v st = c2.set v st ∧
    c1.with_fn f st = c2.with_fn f st ∧
    c1.with_mut g st = c2.with_mut g st ∧
    c1.value_get st = c2.value_get st := by
  obtain ⟨v1, o1⟩ := c1
  obtain ⟨v2, o2⟩ := c2
  cases h
  exact ⟨rfl, rfl, rfl, rfl, rfl, rfl, rfl, rfl⟩

/-- C5 witness: two cells sharing handle (0, 0) with origin scopes 0 and 1,
over a one-slot store. -/
theorem C5_origin_scope_informational_witness :
    ((⟨⟨0, 0⟩, 0⟩ : CopyValue).value = (⟨⟨0, 0⟩, 1⟩ : CopyValue).value) ∧
    (CopyValue.try_read ⟨⟨0, 0⟩, 0⟩ (⟨[⟨0, some (5 : Nat), .Free⟩], []⟩ : Store Nat) =
        CopyValue.try_read ⟨⟨0, 0⟩, 1⟩ ⟨[⟨0, some 5, .Free⟩], []⟩ ∧
      CopyValue.read ⟨⟨0, 0⟩, 0⟩ (⟨[⟨0, some (5 : Nat), .Free⟩], []⟩ : Store Nat) =
        CopyValue.read ⟨⟨0, 0⟩, 1⟩ ⟨[⟨0, some 5, .Free⟩], []⟩ ∧
      CopyValue.try_write ⟨⟨0, 0⟩, 0⟩ (⟨[⟨0, some (5 : Nat), .Free⟩], []⟩ : Store Nat) =
        CopyValue.try_write ⟨⟨0, 0⟩, 1⟩ ⟨[⟨0, some 5, .Free⟩], []⟩ ∧
      CopyValue.write ⟨⟨0, 0⟩, 0⟩ (⟨[⟨0, some (5 : Nat), .Free⟩], []⟩ : Store Nat) =
        CopyValue.write ⟨⟨0, 0⟩, 1⟩ ⟨[⟨0, some 5, .Free⟩], []⟩ ∧
      CopyValue.set ⟨⟨0, 0⟩, 0⟩ 6 (⟨[⟨0, some (5 : Nat), .Free⟩], []⟩ : Store Nat) =
        CopyValue.set ⟨⟨0, 0⟩, 1⟩ 6 ⟨[⟨0, some 5, .Free⟩], []⟩ ∧
      CopyValue.with_fn ⟨⟨0, 0⟩, 0⟩ (fun n => n + 1)
          (⟨[⟨0, some (5 : Nat), .Free⟩], []⟩ : Store Nat) =
        CopyValue.with_fn ⟨⟨0, 0⟩, 1⟩ (fun n => n + 1) ⟨[⟨0, some 5, .Free⟩], []⟩ ∧
      CopyValue.with_mut ⟨⟨0, 0⟩, 0⟩ (fun n => (n + 1, n))
          (⟨[⟨0, some (5 : Nat), .Free⟩], []⟩ : Store Nat) =
        CopyValue.with_mut ⟨⟨0, 0⟩, 1⟩ (fun n => (n + 1, n)) ⟨[⟨0, some 5, .Free⟩], []⟩ ∧
      CopyValue.value_get ⟨⟨0, 0⟩, 0⟩ (⟨[⟨0, some (5 : Nat), .Free⟩], []⟩ : Store Nat) =
        CopyValue.value_get ⟨⟨0, 0⟩, 1⟩ ⟨[⟨0, some 5, .Free⟩], []⟩) :=
  ⟨rfl, C5_origin_scope_informational ⟨⟨0, 0⟩, 0⟩ ⟨⟨0, 0⟩, 1⟩
    ⟨[⟨0, some 5, .Free⟩], []⟩ 6 (fun n => n + 1) (fun n => (n + 1, n)) rfl⟩

/-- C6: `set`, `with` and `with_mut` delegate to the slot-handle accessors:
`set v` replaces the contents through an exclusive write view so that a
subsequent checked read returns `v`; `with f` applies `f` to a shared view of
the current contents and returns `f`'s result; `with_mut f` applies `f` to an
exclusive view and returns its result — in each case the view is released
(the slot's borrow state is `Free` again) before the call returns. -/
theorem C6_accessors_delegate (st : Store α) (c : CopyValue) (w v : α)
    (f : α → β) (g : α → α × β) (h : readable st c w) :
    (∃ st1, c.set v st = .ok st1 ∧ readable st1 c v ∧
      ∃ st2, c.try_read st1 = .ok (v, st2)) ∧
    (∃ st1, c.with_fn f st = .ok (f w, st1) ∧ readable st1 c w) ∧
    (∃ st1, c.with_mut g st = .ok ((g w).2, st1) ∧ readable st1 c (g w).1) := by
  have hlt := readable_lt st c w h
  refine ⟨⟨_, readable_set st c w v h, readable_setSlot st c w v h,
      _, readable_tryRead _ c v (readable_setSlot st c w v h)⟩, ?_, ?_⟩
  · refine ⟨st.setSlot c.value.slotIndex ⟨c.value.generation, some w, .Free⟩, ?_,
      readable_setSlot st c w w h⟩
    simp only [CopyValue.with_fn, CopyValue.read, readable_tryRead st c w h]
    rw [releaseRead_setSlot st _ _ w hlt]
  · refine ⟨st.setSlot c.value.slotIndex ⟨c.value.generation, some (g w).1, .Free⟩, ?_,
      readable_setSlot st c w (g w).1 h⟩
    simp only [CopyValue.with_mut, CopyValue.write, readable_tryWrite st c w h]
    rw [writeRelease_setSlot st _ _ _ _ _ hlt]

/-- C6 witness: the delegation properties on a one-slot store holding 5, with
v = 6, f = (+1) and g duplicating and incrementing. -/
theorem C6_accessors_delegate_witness :
    readable (⟨[⟨0, some (5 : Nat), .Free⟩], []⟩ : Store Nat) ⟨⟨0, 0⟩, 0⟩ 5 ∧
    ((∃ st1, CopyValue.set ⟨⟨0, 0⟩, 0⟩ 6 (⟨[⟨0, some (5 : Nat), .Free⟩], []⟩ : Store Nat) =
        .ok st1 ∧ readable st1 ⟨⟨0, 0⟩, 0⟩ 6 ∧
        ∃ st2, CopyValue.try_read ⟨⟨0, 0⟩, 0⟩ st1 = .ok (6, st2)) ∧
      (∃ st1, CopyValue.with_fn ⟨⟨0, 0⟩, 0⟩ (fun n => n + 1)
          (⟨[⟨0, some (5 : Nat), .Free⟩], []⟩ : Store Nat) = .ok (5 + 1, st1) ∧
        readable st1 ⟨⟨0, 0⟩, 0⟩ 5) ∧
      (∃ st1, CopyValue.with_mut ⟨⟨0, 0⟩, 0⟩ (fun n => (n + 1, n))
          (⟨[⟨0, some (5 : Nat), .Free⟩], []⟩ : Store Nat) =
            .ok (((fun n => (n + 1, n)) 5).2, st1) ∧
        readable st1 ⟨⟨0, 0⟩, 0⟩ ((fun n => (n + 1, n)) 5).1)) :=
  ⟨by decide, C6_accessors_delegate ⟨[⟨0, some 5, .Free⟩], []⟩ ⟨⟨0, 0⟩, 0⟩ 5 6
    (fun n => n + 1) (fun n => (n + 1, n)) (by decide)⟩

/-- C7: the checked accessors `try_read` / `try_write` report a stale handle
and a borrow conflict as distinguishable error values of a total function
(they never unwind past the call), while the unchecked variants `read` and
`write` — and `set`, `with`, `with_mut`, `value` built on them — panic on
exactly the conditions where the checked accessor returns an error, and agree
with it on success. -/
theorem C7_checked_errors_unchecked_panics (st st1 st2 : Store α) (c : CopyValue)
    (v w : α) (f : α → β) (g : α → α × β)
    (hstale : st1.validB c.value = false)
    (hexcl : st2.slots[c.value.slotIndex]? =
      some ⟨c.value.generation, some w, .ExclusiveHeld⟩) :
    BorrowError.Dropped ≠ BorrowError.AlreadyBorrowedMut ∧
    BorrowMutError.Dropped ≠ BorrowMutError.AlreadyBorrowed ∧
    (c.try_read st1 = .error .Dropped ∧ c.try_write st1 = .error .Dropped) ∧
    (c.try_read st2 = .error .AlreadyBorrowedMut ∧
      c.try_write st2 = .error .AlreadyBorrowed) ∧
    (c.read st = .panicked ↔ ∃ e, c.try_read st = .error e) ∧
    (∀ x, c.read st = .ok x ↔ c.try_read st = .ok x) ∧
    (c.write st = .panicked ↔ ∃ e, c.try_write st = .error e) ∧
    (∀ x, c.write st = .ok x ↔ c.try_write st = .ok x) ∧
    (c.set v st = .panicked ↔ ∃ e, c.try_write st = .error e) ∧
    (c.with_fn f st = .panicked ↔ ∃ e, c.try_read st = .error e) ∧
    (c.with_mut g st = .panicked ↔ ∃ e, c.try_write st = .error e) ∧
    (c.value_get st = .panicked ↔ ∃ e, c.try_read st = .error e) := by
  refine ⟨?_, ?_, ?_, ?_, ?_, ?_, ?_, ?_, ?_, ?_, ?_, ?_⟩
  · intro hcon
    cases hcon
  · intro hcon
    cases hcon
  · exact ⟨stale_tryRead st1 c hstale, stale_tryWrite st1 c hstale⟩
  · exact ⟨exclusive_tryRead st2 c w hexcl, exclusive_tryWrite st2 c w hexcl⟩
  · cases htr : c.try_read st with
    | ok x => simp [CopyValue.read, htr]
    | error e => simp [CopyValue.read, htr]
  · intro x
    cases htr : c.try_read st with
    | ok y => simp [CopyValue.read, htr]
    | error e => simp [CopyValue.read, htr]
  · cases htw : c.try_write st with
    | ok x => simp [CopyValue.write, htw]
    | error e => simp [CopyValue.write, htw]
  · intro x
    cases htw : c.try_write st with
    | ok y => simp [CopyValue.write, htw]
    | error e => simp [CopyValue.write, htw]
  · cases htw : c.try_write st with
    | ok x => simp [CopyValue.set, CopyValue.write, htw]
    | error e => simp [CopyValue.set, CopyValue.write, htw]
  · cases htr : c.try_read st with
    | ok x => simp [CopyValue.with_fn, CopyValue.read, htr]
    | error e => simp [CopyValue.with_fn, CopyValue.read, htr]
  · cases htw : c.try_write st with
    | ok x => simp [CopyValue.with_mut, CopyValue.write, htw]
    | error e => simp [CopyValue.with_mut, CopyValue.write, htw]
  · cases htr : c.try_read st with
    | ok x => simp [CopyValue.value_get, CopyValue.read, htr]
    | error e => simp [CopyValue.value_get, CopyValue.read, htr]

/-- C7 witness: a store with a held write view for the conflict case, a store
whose slot generation moved on for the stale case, and a readable store for
the success/panic agreement conjuncts. -/
theorem C7_checked_errors_unchecked_panics_witness :
    ((⟨[⟨1, none, .Free⟩], [0]⟩ : Store Nat).validB
        (⟨⟨0, 0⟩, 0⟩ : CopyValue).value = false) ∧
    ((⟨[⟨0, some (5 : Nat), .ExclusiveHeld⟩], []⟩ : Store Nat).slots[
        (⟨⟨0, 0⟩, 0⟩ : CopyValue).value.slotIndex]? =
      some ⟨(⟨⟨0, 0⟩, 0⟩ : CopyValue).value.generation, some 5, .ExclusiveHeld⟩) ∧
    (BorrowError.Dropped ≠ BorrowError.AlreadyBorrowedMut ∧
      BorrowMutError.Dropped ≠ BorrowMutError.AlreadyBorrowed ∧
      (CopyValue.try_read ⟨⟨0, 0⟩, 0⟩ (⟨[⟨1, none, .Free⟩], [0]⟩ : Store Nat) =
          .error .Dropped ∧
        CopyValue.try_write ⟨⟨0, 0⟩, 0⟩ (⟨[⟨1, none, .Free⟩], [0]⟩ : Store Nat) =
          .error .Dropped) ∧
      (CopyValue.try_read ⟨⟨0, 0⟩, 0⟩
          (⟨[⟨0, some (5 : Nat), .ExclusiveHeld⟩], []⟩ : Store Nat) =
          .error .AlreadyBorrowedMut ∧
        CopyValue.try_write ⟨⟨0, 0⟩, 0⟩
          (⟨[⟨0, some (5 : Nat), .ExclusiveHeld⟩], []⟩ : Store Nat) =
          .error .AlreadyBorrowed) ∧
      (CopyValue.read ⟨⟨0, 0⟩, 0⟩ (⟨[⟨0, some (5 : Nat), .Free⟩], []⟩ : Store Nat) =
          .panicked ↔
        ∃ e, CopyValue.try_read ⟨⟨0, 0⟩, 0⟩
          (⟨[⟨0, some (5 : Nat), .Free⟩], []⟩ : Store Nat) = .error e) ∧
      (∀ x, CopyValue.read ⟨⟨0, 0⟩, 0⟩
          (⟨[⟨0, some (5 : Nat), .Free⟩], []⟩ : Store Nat) = .ok x ↔
        CopyValue.try_read ⟨⟨0, 0⟩, 0⟩
          (⟨[⟨0, some (5 : Nat), .Free⟩], []⟩ : Store Nat) = .ok x) ∧
      (CopyValue.write ⟨⟨0, 0⟩, 0⟩ (⟨[⟨0, some (5 : Nat), .Free⟩], []⟩ : Store Nat) =
          .panicked ↔
        ∃ e, CopyValue.try_write ⟨⟨0, 0⟩, 0⟩
          (⟨[⟨0, some (5 : Nat), .Free⟩], []⟩ : Store Nat) = .error e) ∧
      (∀ x, CopyValue.write ⟨⟨0, 0⟩, 0⟩
          (⟨[⟨0, some (5 : Nat), .Free⟩], []⟩ : Store Nat) = .ok x ↔
        CopyValue.try_write ⟨⟨0, 0⟩, 0⟩
          (⟨[⟨0, some (5 : Nat), .Free⟩], []⟩ : Store Nat) = .ok x) ∧
      (CopyValue.set ⟨⟨0, 0⟩, 0⟩ 6 (⟨[⟨0, some (5 : Nat), .Free⟩], []⟩ : Store Nat) =
          .panicked ↔
        ∃ e, CopyValue.try_write ⟨⟨0, 0⟩, 0⟩
          (⟨[⟨0, some (5 : Nat), .Free⟩], []⟩ : Store Nat) = .error e) ∧
      (CopyValue.with_fn ⟨⟨0, 0⟩, 0⟩ (fun n => n + 1)
          (⟨[⟨0, some (5 : Nat), .Free⟩], []⟩ : Store Nat) = .panicked ↔
        ∃ e, CopyValue.try_read ⟨⟨0, 0⟩, 0⟩
          (⟨[⟨0, some (5 : Nat), .Free⟩], []⟩ : Store Nat) = .error e) ∧
      (CopyValue.with_mut ⟨⟨0, 0⟩, 0⟩ (fun n => (n + 1, n))
          (⟨[⟨0, some (5 : Nat), .Free⟩], []⟩ : Store Nat) = .panicked ↔
        ∃ e, CopyValue.try_write ⟨⟨0, 0⟩, 0⟩
          (⟨[⟨0, some (5 : Nat), .Free⟩], []⟩ : Store Nat) = .error e) ∧
      (CopyValue.value_get ⟨⟨0, 0⟩, 0⟩
          (⟨[⟨0, some (5 : Nat), .Free⟩], []⟩ : Store Nat) = .panicked ↔
        ∃ e, CopyValue.try_read ⟨⟨0, 0⟩, 0⟩
          (⟨[⟨0, some (5 : Nat), .Free⟩], []⟩ : Store Nat) = .error e)) :=
  ⟨by decide, by decide,
    C7_checked_errors_unchecked_panics ⟨[⟨0, some 5, .Free⟩], []⟩
      ⟨[⟨1, none, .Free⟩], [0]⟩ ⟨[⟨0, some 5, .ExclusiveHeld⟩], []⟩ ⟨⟨0, 0⟩, 0⟩ 6 5
      (fun n => n + 1) (fun n => (n + 1, n)) (by decide) (by decide)⟩

/-- C9: each state-cell constructor available outside this module's internals
(`new`, `new_with_caller`, `invalid`) panics exactly when no current scope id
exists (outside a virtual dom); whenever a current scope exists, the store
and owner can always be installed and the panic branches are unreachable. -/
theorem C9_constructors_panic_iff_outside_vdom (v : α) (caller : String)
    (rt : Runtime α) :
    (CopyValue.new v rt = .panicked ↔ rt.currentScope = none) ∧
    (CopyValue.new_with_caller v caller rt = .panicked ↔ rt.currentScope = none) ∧
    (CopyValue.invalid rt = .panicked ↔ rt.currentScope = none) := by
  cases hs : rt.currentScope with
  | none =>
      refine ⟨?_, ?_, ?_⟩ <;>
        simp [CopyValue.new, CopyValue.new_with_caller, CopyValue.invalid,
          current_owner, hs]
  | some s =>
      obtain ⟨rt1, hco, hst1, hcs1, hlk1⟩ := current_owner_ok rt s hs
      have hcs2 : (owner_insert rt1 s v).2.currentScope = some s := by
        rw [(owner_insert_spec rt1 s v).2.2.1, hcs1, hs]
      have hcsi : (owner_invalid rt1 s).2.currentScope = some s := by
        show rt1.currentScope = some s
        rw [hcs1, hs]
      refine ⟨?_, ?_, ?_⟩
      · rw [CopyValue.new, hco]
        simp [hcs2, hs]
      · rw [CopyValue.new_with_caller, hco]
        simp [hcs2, hs]
      · rw [CopyValue.invalid, hco]
        simp [hcsi, hs]

/-- C8: serialization of a state cell is a read-through — it equals the
serialization of the current contents; deserialization decodes a value and
constructs a brand-new cell via `new`, bound to the scope current at
deserialization time, whose freshly allocated handle differs from every
handle live in the pre-existing store (original slot identity is never
reconstructed). -/
theorem C8_serde_read_through_fresh_cell (st : Store α) (c : CopyValue) (w : α)
    (serT : α → σ) (deT : σ → Except ε α) (data : σ) (v : α)
    (rt : Runtime α) (s : ScopeId)
    (hr : readable st c w) (hde : deT data = .ok v)
    (hs : rt.currentScope = some s) (hwf : rt.getStore.WF) :
    c.serialize serT st = .ok (serT w) ∧
    CopyValue.deserialize deT data rt = .ok (CopyValue.new v rt) ∧
    ∃ c' rt1, CopyValue.new v rt = .ok (c', rt1) ∧ c'.origin_scope = s ∧
      readable rt1.getStore c' v ∧
      ∀ c0 : CopyValue, rt.getStore.liveAt c0.value → CopyValue.eq c' c0 = false := by
  refine ⟨?_, ?_, ?_⟩
  · simp only [CopyValue.serialize, CopyValue.read, readable_tryRead st c w hr]
  · simp [CopyValue.deserialize, hde]
  · obtain ⟨c', rt1, hnew, horig, hval, -, -, -, hread, -, -⟩ :=
      CopyValue.new_spec v rt s hs hwf
    refine ⟨c', rt1, hnew, horig, hread, ?_⟩
    intro c0 hlive
    rw [CopyValue.eq, hval]
    exact rt.getStore.allocate_fresh v c0.value hwf hlive

/-- C8 witness: a one-slot store serializes its cell as the identity
serialization of 5; deserializing 7 on a runtime whose store already holds a
live slot builds the cell via `new` in current scope 3 with a fresh handle. -/
theorem C8_serde_read_through_fresh_cell_witness :
    readable (⟨[⟨0, some (5 : Nat), .Free⟩], []⟩ : Store Nat) ⟨⟨0, 0⟩, 0⟩ 5 ∧
    ((fun n => Except.ok n : Nat → Except Unit Nat) 7 = .ok 7) ∧
    ((⟨some ⟨[⟨0, some (5 : Nat), .Free⟩], []⟩, [], some 3⟩ : Runtime Nat).currentScope =
      some 3) ∧
    ((⟨some ⟨[⟨0, some (5 : Nat), .Free⟩], []⟩, [], some 3⟩ : Runtime Nat).getStore.WF) ∧
    (CopyValue.serialize ⟨⟨0, 0⟩, 0⟩ (fun n => n)
        (⟨[⟨0, some (5 : Nat), .Free⟩], []⟩ : Store Nat) = .ok 5 ∧
      CopyValue.deserialize (fun n => Except.ok n : Nat → Except Unit Nat) 7
          (⟨some ⟨[⟨0, some (5 : Nat), .Free⟩], []⟩, [], some 3⟩ : Runtime Nat) =
        .ok (CopyValue.new 7 ⟨some ⟨[⟨0, some 5, .Free⟩], []⟩, [], some 3⟩) ∧
      ∃ c' rt1, CopyValue.new (7 : Nat)
          (⟨some ⟨[⟨0, some (5 : Nat), .Free⟩], []⟩, [], some 3⟩ : Runtime Nat) =
          .ok (c', rt1) ∧ c'.origin_scope = 3 ∧
        readable rt1.getStore c' 7 ∧
        ∀ c0 : CopyValue,
          (⟨some ⟨[⟨0, some (5 : Nat), .Free⟩], []⟩, [], some 3⟩ :
              Runtime Nat).getStore.liveAt c0.value →
          CopyValue.eq c' c0 = false) :=
  ⟨by decide, rfl, rfl, by decide,
    C8_serde_read_through_fresh_cell ⟨[⟨0, some 5, .Free⟩], []⟩ ⟨⟨0, 0⟩, 0⟩ 5
      (fun n => n) (fun n => Except.ok n) 7 7
      ⟨some ⟨[⟨0, some 5, .Free⟩], []⟩, [], some 3⟩ 3
      (by decide) rfl rfl (by decide)⟩

end DioxusSignals
